import Mathlib

/-!
Verification of the lizard-tui core against its specification.

The development shallowly embeds the Python module `lizard_tui.py`:

* `parse_lizard_output` models the text parser of the same name, including a
  faithful backtracking model of the three regular expressions it compiles
  (`func_pattern`, `file_pattern`, `total_pattern`) and of the Python
  `float` conversions applied to the captured decimal fields.  A Python
  exception escaping the parser is modelled by the result `none`.
* `update_tables` models the pure projection performed by the method of the
  same name: filtering of the function list and stable sorting of both
  lists.  The Python built-in `sorted` is a stable sort; it is modelled by
  `List.insertionSort`, which is extensionally equal to any stable sort for
  a total preorder.
* `extractWindow` models the line-window computation of `_show_code_preview`.
* `sessionStep` models the state mutations performed by `run_analysis`,
  `_analysis_complete` and `_analysis_error`.

Modelling conventions: Python `int` values produced from `\d+` captures are
`Nat`; Python `float` values are modelled as exact rationals (the captured
fields are decimal literals, and no claim depends on binary rounding);
strings are handled as `List Char`; the whitespace class and the character
case conversion are modelled over the ASCII range, which covers every
input considered by the claims.
-/

namespace LizardTUI

/-- ASCII model of the Python whitespace class used by `str.strip` and the
regex class `\s`. -/
def isSpace (c : Char) : Bool :=
  c = ' ' || c = '\t' || c = '\n' || c = '\r' || c = '\x0b' || c = '\x0c'

/-- Value of a digit string, as computed by the Python `int` constructor on a
`\d+` capture. -/
def digitsToNat (l : List Char) : Nat :=
  l.foldl (fun n c => 10 * n + (c.toNat - 48)) 0

/-- Model of Python `str.strip()`: remove leading and trailing whitespace. -/
def pyStrip (l : List Char) : List Char :=
  ((l.dropWhile isSpace).reverse.dropWhile isSpace).reverse

/-- Model of Python `str.split(chr(10))`: split at every newline, keeping
empty pieces. -/
def splitNl : List Char → List (List Char)
  | [] => [[]]
  | c :: rest =>
    if c = '\n' then [] :: splitNl rest
    else
      match splitNl rest with
      | [] => [[c]]
      | l :: ls => (c :: l) :: ls

/-- Model of the Python substring test `needle in haystack`. -/
def isSubstring (needle haystack : List Char) : Bool :=
  haystack.tails.any (fun t => needle.isPrefixOf t)

/-- Model of Python `line.startswith(c)` for a single character. -/
def startsWithChar (l : List Char) (c : Char) : Bool :=
  match l with
  | [] => false
  | d :: _ => d = c

/-- ASCII model of Python `str.lower()`. -/
def lowerList (l : List Char) : List Char :=
  l.map Char.toLower

/-- ASCII model of Python `str.lower()` on `String`. -/
def pyLower (s : String) : String :=
  String.mk (lowerList s.toList)

/-- Metrics for a single function, as in the dataclass `FunctionMetrics`. -/
structure FunctionMetrics where
  nloc : Nat
  ccn : Nat
  token_count : Nat
  param_count : Nat
  length : Nat
  name : String
  start_line : Nat
  end_line : Nat
  file_path : String
deriving DecidableEq, Repr

/-- Metrics for a single file, as in the dataclass `FileMetrics`. -/
structure FileMetrics where
  nloc : Nat
  avg_nloc : ℚ
  avg_ccn : ℚ
  avg_token : ℚ
  function_count : Nat
  file_path : String
deriving DecidableEq, Repr

/-- Complete analysis result, as in the dataclass `LizardResult`. -/
structure LizardResult where
  functions : List FunctionMetrics
  files : List FileMetrics
  total_nloc : Nat
  avg_nloc : ℚ
  avg_ccn : ℚ
  avg_token : ℚ
  function_count : Nat
  warning_count : Nat
deriving DecidableEq, Repr

/-! ### The three compiled regular expressions

Each pattern is modelled by a matcher that follows the Python regex engine
on the pattern text: greedy `\d+`, `[\d.]+` and `\s+` runs are maximal runs
(shrinking them always places a conflicting character in front of the next
required token, so the maximal run is the only candidate), while the lazy
group `(.+?)` and the run of whitespace immediately before it genuinely
backtrack and are modelled by an explicit search in the same order the
engine explores. -/

/-- Read a maximal nonempty digit run, as the regex token `(\d+)`. -/
def readNat (l : List Char) : Option (Nat × List Char) :=
  let p := l.span Char.isDigit
  if p.1.isEmpty then none else some (digitsToNat p.1, p.2)

/-- Read a maximal nonempty whitespace run, as the regex token `\s+`. -/
def readWs (l : List Char) : Option (List Char × List Char) :=
  let p := l.span isSpace
  if p.1.isEmpty then none else some p

/-- Read a maximal nonempty run of digits and dots, as the regex token
`([\d.]+)`. -/
def readDD (l : List Char) : Option (List Char × List Char) :=
  let p := l.span (fun c => c.isDigit || c = '.')
  if p.1.isEmpty then none else some p

/-- Attempt to read `@(\d+)-(\d+)@(.+)$` at the current position, the way the
regex engine does inside `func_pattern`: each digit run is maximal and the
final group needs at least one remaining character. -/
def tryGroupAt (r : List Char) : Option (Nat × Nat × List Char) :=
  match r with
  | '@' :: r1 =>
    let p1 := r1.span Char.isDigit
    if p1.1.isEmpty then none
    else
      match p1.2 with
      | '-' :: r2 =>
        let p2 := r2.span Char.isDigit
        if p2.1.isEmpty then none
        else
          match p2.2 with
          | '@' :: r3 =>
            if r3.isEmpty then none
            else some (digitsToNat p1.1, digitsToNat p2.1, r3)
          | _ => none
      | _ => none
  | _ => none

/-- Scan for the lazy group `(.+?)` followed by `@(\d+)-(\d+)@(.+)$`: the
name grows one character at a time, so the first position at or after one
character where `tryGroupAt` succeeds wins.  The accumulator holds the
reversed name read so far. -/
def matchTailAux : List Char → List Char → Option (List Char × Nat × Nat × List Char)
  | _, [] => none
  | acc, c :: rest =>
    match acc, tryGroupAt (c :: rest) with
    | _ :: _, some (a, b, path) => some (acc.reverse, a, b, path)
    | _, _ => matchTailAux (c :: acc) rest

/-- Match `(.+?)@(\d+)-(\d+)@(.+)$` against a whole string. -/
def matchTail (l : List Char) : Option (List Char × Nat × Nat × List Char) :=
  matchTailAux [] l

/-- Backtracking over the whitespace run that separates the fifth integer
from the location field: the engine first lets `\s+` keep the whole run and,
on failure, gives trailing whitespace characters back to the lazy name one
at a time (the run must keep at least one character). -/
def funcTailBT (wsRun rest : List Char) : Nat → Option (List Char × Nat × Nat × List Char)
  | 0 => none
  | j + 1 =>
    match matchTail (wsRun.drop (j + 1) ++ rest) with
    | some r => some r
    | none => funcTailBT wsRun rest j

/-- Model of the compiled regex
`^\s*(\d+)\s+(\d+)\s+(\d+)\s+(\d+)\s+(\d+)\s+(.+?)@(\d+)-(\d+)@(.+)$`
applied with `match`, together with the `int` conversions of the six
numeric captures performed when a `FunctionMetrics` is built. -/
def func_pattern (t : List Char) : Option FunctionMetrics :=
  (readNat (t.dropWhile isSpace)).bind fun p1 =>
  (readWs p1.2).bind fun q1 =>
  (readNat q1.2).bind fun p2 =>
  (readWs p2.2).bind fun q2 =>
  (readNat q2.2).bind fun p3 =>
  (readWs p3.2).bind fun q3 =>
  (readNat q3.2).bind fun p4 =>
  (readWs p4.2).bind fun q4 =>
  (readNat q4.2).bind fun p5 =>
  (readWs p5.2).bind fun q5 =>
  (funcTailBT q5.1 q5.2 q5.1.length).map fun r =>
    { nloc := p1.1, ccn := p2.1, token_count := p3.1, param_count := p4.1,
      length := p5.1, name := String.mk r.1, start_line := r.2.1,
      end_line := r.2.2.1, file_path := String.mk r.2.2.2 }

/-- Model of the compiled regex
`^\s*(\d+)\s+([\d.]+)\s+([\d.]+)\s+([\d.]+)\s+(\d+)\s+(.+)$` applied with
`match`.  The decimal captures are returned as raw strings because the
`float` conversion applied to them afterwards can fail.  When the final
greedy group would be empty, the separator `\s+` gives one whitespace
character back to it. -/
def file_pattern (t : List Char) : Option (Nat × List Char × List Char × List Char × Nat × List Char) :=
  (readNat (t.dropWhile isSpace)).bind fun p1 =>
  (readWs p1.2).bind fun q1 =>
  (readDD q1.2).bind fun p2 =>
  (readWs p2.2).bind fun q2 =>
  (readDD q2.2).bind fun p3 =>
  (readWs p3.2).bind fun q3 =>
  (readDD q3.2).bind fun p4 =>
  (readWs p4.2).bind fun q4 =>
  (readNat q4.2).bind fun p5 =>
  (readWs p5.2).bind fun q5 =>
  if q5.2.isEmpty then
    match q5.1.reverse with
    | c :: _ :: _ => some (p1.1, p2.1, p3.1, p4.1, p5.1, [c])
    | _ => none
  else some (p1.1, p2.1, p3.1, p4.1, p5.1, q5.2)

/-- Model of the compiled regex
`^\s*(\d+)\s+([\d.]+)\s+([\d.]+)\s+([\d.]+)\s+(\d+)\s+(\d+)` applied with
`match`; the pattern is unanchored on the right, so trailing text is
ignored. -/
def total_pattern (t : List Char) : Option (Nat × List Char × List Char × List Char × Nat × Nat) :=
  (readNat (t.dropWhile isSpace)).bind fun p1 =>
  (readWs p1.2).bind fun q1 =>
  (readDD q1.2).bind fun p2 =>
  (readWs p2.2).bind fun q2 =>
  (readDD q2.2).bind fun p3 =>
  (readWs p3.2).bind fun q3 =>
  (readDD q3.2).bind fun p4 =>
  (readWs p4.2).bind fun q4 =>
  (readNat q4.2).bind fun p5 =>
  (readWs p5.2).bind fun q5 =>
  (readNat q5.2).map fun p6 =>
  (p1.1, p2.1, p3.1, p4.1, p5.1, p6.1)

/-- Model of the Python `float` constructor restricted to the strings a
`[\d.]+` capture can produce: the conversion succeeds exactly when the
string holds at least one digit and at most one dot, and then denotes that
exact decimal value. -/
def pyFloat (s : List Char) : Option ℚ :=
  if s.all (fun c => c.isDigit || c = '.') = false then none
  else if s.any Char.isDigit = false then none
  else if 2 ≤ s.count '.' then none
  else if s.count '.' = 0 then some (digitsToNat s : ℚ)
  else
    let intPart := s.takeWhile (fun c => c ≠ '.')
    let fracPart := (s.dropWhile (fun c => c ≠ '.')).drop 1
    some ((digitsToNat intPart : ℚ) + (digitsToNat fracPart : ℚ) / ((10 : ℚ) ^ fracPart.length))

/-! ### The line-by-line parser -/

/-- The literal function-section header tested with `in`. -/
def funcHeader : List Char := "NLOC    CCN   token  PARAM  length  location".toList

/-- The literal file-section header tested with `in`. -/
def fileHeader : List Char := "NLOC    Avg.NLOC  AvgCCN  Avg.token  function_cnt    file".toList

/-- The literal totals-section marker tested with `in`. -/
def totalHeader : List Char := "Total nloc".toList

/-- The first thresholds banner tested with `in`. -/
def noThresholdMsg : List Char := "No thresholds exceeded".toList

/-- The second thresholds banner tested with `in`. -/
def thresholdMsg : List Char := "thresholds exceeded".toList

/-- Parser state carried across lines: the accumulated rows, the three
section flags, and the running totals. -/
structure PState where
  functions : List FunctionMetrics
  files : List FileMetrics
  in_function_section : Bool
  in_file_section : Bool
  in_total_section : Bool
  total_nloc : Nat
  avg_nloc : ℚ
  avg_ccn : ℚ
  avg_token : ℚ
  function_count : Nat
  warning_count : Nat
deriving DecidableEq, Repr

/-- The state before any line is processed. -/
def initState : PState :=
  { functions := [], files := [], in_function_section := false,
    in_file_section := false, in_total_section := false, total_nloc := 0,
    avg_nloc := 0, avg_ccn := 0, avg_token := 0, function_count := 0,
    warning_count := 0 }

/-- Overwrite the six totals fields of the state. -/
def setTotals (st : PState) (v : Nat × ℚ × ℚ × ℚ × Nat × Nat) : PState :=
  { st with
    total_nloc := v.1, avg_nloc := v.2.1, avg_ccn := v.2.2.1,
    avg_token := v.2.2.2.1, function_count := v.2.2.2.2.1,
    warning_count := v.2.2.2.2.2 }

/-- Convert a matched file row into a `FileMetrics`, applying the Python
`float` conversions; `none` models the `ValueError` they can raise. -/
def fileOfGroups (g : Nat × List Char × List Char × List Char × Nat × List Char) :
    Option FileMetrics :=
  match pyFloat g.2.1, pyFloat g.2.2.1, pyFloat g.2.2.2.1 with
  | some a, some b, some c =>
    some { nloc := g.1, avg_nloc := a, avg_ccn := b, avg_token := c,
           function_count := g.2.2.2.2.1, file_path := String.mk g.2.2.2.2.2 }
  | _, _, _ => none

/-- Convert a matched totals row into the six totals values, applying the
Python `float` conversions; `none` models the `ValueError` they can raise. -/
def totalsOfGroups (g : Nat × List Char × List Char × List Char × Nat × Nat) :
    Option (Nat × ℚ × ℚ × ℚ × Nat × Nat) :=
  match pyFloat g.2.1, pyFloat g.2.2.1, pyFloat g.2.2.2.1 with
  | some a, some b, some c => some (g.1, a, b, c, g.2.2.2.2.1, g.2.2.2.2.2)
  | _, _, _ => none

/-- Totals row matching and conversion combined: the values a line
contributes when processed in the totals section. -/
def totalsOfLine (t : List Char) : Option (Nat × ℚ × ℚ × ℚ × Nat × Nat) :=
  match total_pattern t with
  | none => none
  | some g => totalsOfGroups g

/-- Process one raw line of analyzer output, mirroring the body of the
`for` loop of `parse_lizard_output`: strip, classify headers and noise,
then parse according to the active section.  `none` models a Python
exception escaping the loop. -/
def processLine (st : PState) (raw : List Char) : Option PState :=
  let line := pyStrip raw
  if isSubstring funcHeader line then
    some { st with
           in_function_section := true, in_file_section := false,
           in_total_section := false }
  else if isSubstring fileHeader line then
    some { st with
           in_function_section := false, in_file_section := true,
           in_total_section := false }
  else if isSubstring totalHeader line then
    some { st with
           in_function_section := false, in_file_section := false,
           in_total_section := true }
  else if startsWithChar line '=' || startsWithChar line '-' || line.isEmpty then
    some st
  else if isSubstring noThresholdMsg line || isSubstring thresholdMsg line then
    some { st with in_file_section := false }
  else if st.in_function_section then
    match func_pattern line with
    | some f => some { st with functions := st.functions ++ [f] }
    | none => some st
  else if st.in_file_section then
    match file_pattern line with
    | some g =>
      match fileOfGroups g with
      | some fm => some { st with files := st.files ++ [fm] }
      | none => none
    | none => some st
  else if st.in_total_section then
    match total_pattern line with
    | some g =>
      match totalsOfGroups g with
      | some v => some (setTotals st v)
      | none => none
    | none => some st
  else some st

/-- The `LizardResult` assembled from the final parser state. -/
def stateResult (st : PState) : LizardResult :=
  { functions := st.functions, files := st.files, total_nloc := st.total_nloc,
    avg_nloc := st.avg_nloc, avg_ccn := st.avg_ccn, avg_token := st.avg_token,
    function_count := st.function_count, warning_count := st.warning_count }

/-- Model of `parse_lizard_output`: split the raw text into lines, run the
section state machine over them and assemble the result.  `none` models a
Python exception escaping the function. -/
def parse_lizard_output (output : String) : Option LizardResult :=
  ((splitNl output.toList).foldlM processLine initState).map stateResult

/-- The empty report: all sequences empty, all totals zero. -/
def emptyResult : LizardResult :=
  { functions := [], files := [], total_nloc := 0, avg_nloc := 0, avg_ccn := 0,
    avg_token := 0, function_count := 0, warning_count := 0 }

/-! ### The display projection of `update_tables` -/

/-- The function-list filter of `update_tables`: with nonempty filter text,
keep the functions whose lowered name or lowered file path contains the
lowered filter text. -/
def filterFunctions (filter_text : String) (functions : List FunctionMetrics) :
    List FunctionMetrics :=
  if filter_text = "" then functions
  else
    functions.filter fun f =>
      isSubstring (lowerList filter_text.toList) (lowerList f.name.toList) ||
        isSubstring (lowerList filter_text.toList) (lowerList f.file_path.toList)

/-- Pure projection computed by `update_tables`: the displayed function
list (filtered, then sorted by the current key) and the displayed file list
(sorted by the current key, never filtered).  Python `sorted` with
`reverse=True` keeps equal keys in encounter order, hence the non-strict
comparisons used here. -/
def update_tables (result : LizardResult) (filter_text : String)
    (current_sort : String) : List FunctionMetrics × List FileMetrics :=
  let functions := filterFunctions filter_text result.functions
  let functions :=
    if current_sort = "ccn" then
      functions.insertionSort (fun a b => b.ccn ≤ a.ccn)
    else if current_sort = "nloc" then
      functions.insertionSort (fun a b => b.nloc ≤ a.nloc)
    else if current_sort = "name" then
      functions.insertionSort (fun a b => pyLower a.name ≤ pyLower b.name)
    else functions
  let files := result.files
  let files :=
    if current_sort = "ccn" then
      files.insertionSort (fun a b => b.avg_ccn ≤ a.avg_ccn)
    else if current_sort = "nloc" then
      files.insertionSort (fun a b => b.nloc ≤ a.nloc)
    else if current_sort = "name" then
      files.insertionSort (fun a b => pyLower a.file_path ≤ pyLower b.file_path)
    else files
  (functions, files)

/-! ### The code window of `_show_code_preview` -/

/-- Pure core of `_show_code_preview`: clip the requested one-based line
range to the file and annotate the slice with `enumerate(.., start_line)`.
Natural subtraction makes `start_line - 1` coincide with the Python
`max(0, start_line - 1)`. -/
def extractWindow (lines : List String) (start_line end_line : Nat) :
    List (Nat × String) :=
  let start := start_line - 1
  let stop := min lines.length end_line
  ((lines.drop start).take (stop - start)).enumFrom start_line

/-! ### The session and job model

`run_analysis` pushes a loading screen and starts a background job; the job
ends by delivering exactly one of `_analysis_complete` (which pops a screen
and unconditionally overwrites the report) or `_analysis_error` (which pops
a screen and only sets the status line).  The session state and these three
mutations are modelled below; a job is identified by its issue order. -/

/-- The mutable session fields touched by the three callbacks. -/
structure SessionState where
  report : Option LizardResult
  latest_job : Nat
  loading_screens : Nat
  status : String
deriving DecidableEq, Repr

/-- The session state at startup. -/
def initSession : SessionState :=
  { report := none, latest_job := 0, loading_screens := 0, status := "Ready" }

/-- Events observed by the session: a path submission issuing a new job, or
a job delivering its completion or its failure message. -/
inductive SessionEvent where
  | submit : SessionEvent
  | jobComplete : LizardResult → SessionEvent
  | jobError : String → SessionEvent
deriving DecidableEq, Repr

/-- One session transition: `submit` models `run_analysis` (new job, one
more loading screen), `jobComplete r` models `_analysis_complete` (pop one
screen, overwrite the report unconditionally, set the status line) and
`jobError m` models `_analysis_error` (pop one screen, set the status line,
leave the report untouched). -/
def sessionStep (st : SessionState) (e : SessionEvent) : SessionState :=
  match e with
  | .submit =>
    { st with
      latest_job := st.latest_job + 1,
      loading_screens := st.loading_screens + 1 }
  | .jobComplete r =>
    { st with
      loading_screens := st.loading_screens - 1, report := some r,
      status := "Analyzed " ++ toString r.files.length ++ " files, " ++
        toString r.function_count ++ " functions" }
  | .jobError msg =>
    { st with
      loading_screens := st.loading_screens - 1,
      status := "Error: " ++ msg }

/-- Run a sequence of session events. -/
def runSession (st : SessionState) (evs : List SessionEvent) : SessionState :=
  evs.foldl sessionStep st

/-- The result carried by the most recently delivered completion event, if
any. -/
def lastDelivered : List SessionEvent → Option LizardResult
  | [] => none
  | e :: evs =>
    match lastDelivered evs with
    | some r => some r
    | none =>
      match e with
      | .jobComplete r => some r
      | _ => none

/-- The `try`/`except` boundary of `_do_analysis`: a successful run of the
analyzer plus parser delivers the result, any raised exception is converted
to its string message and delivered as an error. -/
def jobOutcomeEvent (outcome : Except String LizardResult) : SessionEvent :=
  match outcome with
  | .ok r => .jobComplete r
  | .error e => .jobError e

/-! ### Concrete data used by the claim instances -/

/-- A line of analyzer output is header-free when its stripped form holds
none of the three section markers. -/
def noHeaderLine (l : List Char) : Bool :=
  !(isSubstring funcHeader (pyStrip l)) && !(isSubstring fileHeader (pyStrip l)) &&
    !(isSubstring totalHeader (pyStrip l))

/-- A line that, processed in the totals section, parses as a totals row:
it holds no section marker and no thresholds banner, and matches the totals
pattern with convertible decimal fields. -/
def goodTotalsLine (l : List Char) : Bool :=
  noHeaderLine l && !(isSubstring noThresholdMsg (pyStrip l)) &&
    !(isSubstring thresholdMsg (pyStrip l)) && (totalsOfLine (pyStrip l)).isSome

/-- Analyzer output whose file section holds the row `1 1.2.3 1.0 1.0 2 x`:
the row matches the file pattern, and `float` applied to the capture
`1.2.3` raises a `ValueError` that escapes `parse_lizard_output`. -/
def c1BadInput : String :=
  "NLOC    Avg.NLOC  AvgCCN  Avg.token  function_cnt    file\n1 1.2.3 1.0 1.0 2 x"

/-- The function-section example of the specification. -/
def c2Input : String :=
  "NLOC    CCN   token  PARAM  length  location\n10  3  45  2  12  foo@5-16@src/a.py"

/-- The function metric the specification expects from `c2Input`. -/
def c2Expected : FunctionMetrics :=
  { nloc := 10, ccn := 3, token_count := 45, param_count := 2, length := 12,
    name := "foo", start_line := 5, end_line := 16, file_path := "src/a.py" }

/-- A report whose totals distinguish it from `reportTwo`. -/
def reportOne : LizardResult :=
  { emptyResult with total_nloc := 1 }

/-- A report whose totals distinguish it from `reportOne`. -/
def reportTwo : LizardResult :=
  { emptyResult with total_nloc := 2 }

/-- A function metric named `foo_bar`, used by the filtering instance. -/
def fooBarMetric : FunctionMetrics :=
  { nloc := 1, ccn := 1, token_count := 1, param_count := 1, length := 1,
    name := "foo_bar", start_line := 1, end_line := 2, file_path := "src/m.py" }

/-- First function of the sorting instance, `ccn = 3`. -/
def demoF1 : FunctionMetrics :=
  { nloc := 1, ccn := 3, token_count := 0, param_count := 0, length := 0,
    name := "f1", start_line := 1, end_line := 1, file_path := "p" }

/-- Second function of the sorting instance, `ccn = 9`. -/
def demoF2 : FunctionMetrics :=
  { nloc := 2, ccn := 9, token_count := 0, param_count := 0, length := 0,
    name := "f2", start_line := 1, end_line := 1, file_path := "p" }

/-- Third function of the sorting instance, `ccn = 9`. -/
def demoF3 : FunctionMetrics :=
  { nloc := 3, ccn := 9, token_count := 0, param_count := 0, length := 0,
    name := "f3", start_line := 1, end_line := 1, file_path := "p" }

/-- Fourth function of the sorting instance, `ccn = 1`. -/
def demoF4 : FunctionMetrics :=
  { nloc := 4, ccn := 1, token_count := 0, param_count := 0, length := 0,
    name := "f4", start_line := 1, end_line := 1, file_path := "p" }

/-- Report holding the four functions with `ccn` values `[3, 9, 9, 1]`. -/
def demoReport : LizardResult :=
  { emptyResult with functions := [demoF1, demoF2, demoF3, demoF4] }

/-- Analyzer output holding a totals marker followed by two totals rows. -/
def c4Input : String :=
  "Total nloc\n500  10  5  40  20  3\n600  11  6  41  21  4"

/-- First totals row of `c4Input`. -/
def c4Line1 : List Char := "500  10  5  40  20  3".toList

/-- Second totals row of `c4Input`. -/
def c4Line2 : List Char := "600  11  6  41  21  4".toList

/-- The report expected from `c4Input`: the values of its second totals
row. -/
def c4Expected : LizardResult :=
  { emptyResult with
    total_nloc := 600, avg_nloc := 11, avg_ccn := 6, avg_token := 41,
    function_count := 21, warning_count := 4 }

/-- A ten-line file. -/
def tenLines : List String :=
  [ "line01", "line02", "line03", "line04", "line05", "line06", "line07",
    "line08", "line09", "line10"]

/-! ### General lemmas about the session model -/

/-- After any event sequence, the report equals the most recently delivered
completion result, or the starting report when none was delivered: every
delivery commits unconditionally. -/
theorem runSession_report (evs : List SessionEvent) : ∀ (st : SessionState),
    (runSession st evs).report =
      match lastDelivered evs with
      | some r => some r
      | none => st.report := by
  induction evs with
  | nil => intro st; rfl
  | cons e evs ih =>
    intro st
    have hstep : runSession st (e :: evs) = runSession (sessionStep st e) evs := rfl
    rw [hstep, ih (sessionStep st e)]
    cases h : lastDelivered evs with
    | some r => simp [lastDelivered, h]
    | none => cases e <;> simp [lastDelivered, h, sessionStep]

/-! ### Claim theorems -/

/-- Claim C3, counterexample: issuing job 1 then job 2, letting job 2
deliver first and job 1 deliver late, commits the late result: the session
report ends as `reportOne`, not as the report committed by job 2, so a
stale delivery is not rejected. -/
theorem claim_C3_counterexample :
    (runSession initSession
      [ SessionEvent.submit, SessionEvent.submit,
        SessionEvent.jobComplete reportTwo,
        SessionEvent.jobComplete reportOne]).report = some reportOne ∧
      reportOne ≠ reportTwo := by
  exact ⟨rfl, by decide⟩

/-- Claim C3, amended: `_analysis_complete` commits every delivered result
unconditionally, so the session report always equals the most recently
delivered completion result (delivery order wins, independent of the issue
order of the jobs); no stale-result rejection takes place. -/
theorem claim_C3_amended (st : SessionState) (evs : List SessionEvent) :
    (runSession st evs).report =
      match lastDelivered evs with
      | some r => some r
      | none => st.report :=
  runSession_report evs st

/-- Claim C9: a failed job reaches the session as `_analysis_error` with
the exception rendered as a string; the transition pops one loading screen,
sets the status line to the error text, and leaves the report and the job
counter untouched, and being a total function it propagates no
exception. -/
theorem claim_C9 (st : SessionState) (msg : String) :
    sessionStep st (jobOutcomeEvent (Except.error msg)) =
      { report := st.report, latest_job := st.latest_job,
        loading_screens := st.loading_screens - 1,
        status := "Error: " ++ msg } :=
  rfl

/-- Claim C7: the displayed file list never depends on the filter text: for
any report and sort key, two arbitrary filter texts project the same file
list. -/
theorem claim_C7 (r : LizardResult) (sort ft1 ft2 : String) :
    (update_tables r ft1 sort).2 = (update_tables r ft2 sort).2 :=
  rfl

/-- Claim C1, counterexample: the parser is not total.  On analyzer output
whose file section holds the row `1 1.2.3 1.0 1.0 2 x`, the row matches the
file pattern but `float` rejects the capture `1.2.3`, and the resulting
`ValueError` escapes `parse_lizard_output` (modelled by `none`). -/
theorem claim_C1_counterexample : parse_lizard_output c1BadInput = none := by
  decide

/-- A header-free line leaves the initial parser state unchanged: no
section is open, so the line is either classified as noise or dropped by
the final catch-all branch. -/
theorem processLine_no_header (l : List Char) (h : noHeaderLine l = true) :
    processLine initState l = some initState := by
  simp only [noHeaderLine, Bool.and_eq_true, Bool.not_eq_true'] at h
  obtain ⟨⟨h1, h2⟩, h3⟩ := h
  unfold processLine
  simp only [h1, h2, h3, Bool.false_eq_true, if_false]
  split
  · rfl
  · split
    · rfl
    · rfl

/-- Folding the parser over header-free lines keeps the initial state. -/
theorem foldlM_no_header (ls : List (List Char)) (h : ls.all noHeaderLine = true) :
    ls.foldlM processLine initState = some initState := by
  induction ls with
  | nil => rfl
  | cons l ls ih =>
    simp only [List.all_cons, Bool.and_eq_true] at h
    rw [List.foldlM_cons, processLine_no_header l h.1]
    exact ih h.2

/-- Claim C1, amended: `parse_lizard_output` can raise when a matched file
or totals row carries a decimal capture that is not a valid `float` literal
(see the counterexample); on every input none of whose lines holds a
section marker it does return, without raising, the report with empty
functions, empty files and all six totals zero. -/
theorem claim_C1_amended (s : String)
    (h : (splitNl s.toList).all noHeaderLine = true) :
    parse_lizard_output s = some emptyResult := by
  unfold parse_lizard_output
  rw [foldlM_no_header _ h]
  rfl

/-- Claim C1, witness: the header-free input `hello\nworld` yields the
empty report. -/
theorem claim_C1_witness :
    ((splitNl ("hello\nworld").toList).all noHeaderLine = true) ∧
      parse_lizard_output "hello\nworld" = some emptyResult :=
  ⟨by decide, claim_C1_amended "hello\nworld" (by decide)⟩

/-- A string with an empty character list is the empty string. -/
theorem eq_empty_of_toList_eq_nil {s : String} (h : s.toList = []) : s = "" := by
  cases s with
  | mk data =>
    simp only [String.toList] at h
    subst h
    rfl

/-- Claim C5: the function filter keeps everything for the empty filter
text; two filter texts with the same lowering (in particular the same text
in different letter case) filter identically; and filtering twice with the
same text equals filtering once. -/
theorem claim_C5 (ft1 ft2 : String) (fs : List FunctionMetrics) :
    filterFunctions "" fs = fs
    ∧ (pyLower ft1 = pyLower ft2 → filterFunctions ft1 fs = filterFunctions ft2 fs)
    ∧ filterFunctions ft1 (filterFunctions ft1 fs) = filterFunctions ft1 fs := by
  refine ⟨by simp [filterFunctions], ?_, ?_⟩
  · intro h
    have hl : lowerList ft1.toList = lowerList ft2.toList := by
      simpa [pyLower] using congrArg String.toList h
    have hemp : ft1 = "" ↔ ft2 = "" := by
      constructor <;> intro h0 <;> subst h0 <;>
        [ (apply eq_empty_of_toList_eq_nil;
           have := hl.symm; simpa [lowerList, List.map_eq_nil_iff] using this);
          (apply eq_empty_of_toList_eq_nil;
           simpa [lowerList, List.map_eq_nil_iff] using hl)]
    by_cases h0 : ft1 = ""
    · have h0b : ft2 = "" := hemp.mp h0
      rw [h0, h0b]
    · have h0b : ¬ ft2 = "" := fun hx => h0 (hemp.mpr hx)
      unfold filterFunctions
      rw [if_neg h0, if_neg h0b, hl]
  · by_cases h0 : ft1 = ""
    · subst h0; simp [filterFunctions]
    · unfold filterFunctions
      rw [if_neg h0, if_neg h0, List.filter_filter]
      congr 1
      funext f
      cases h1 : isSubstring (lowerList ft1.toList) (lowerList f.name.toList) <;>
        cases h2 : isSubstring (lowerList ft1.toList) (lowerList f.file_path.toList) <;>
          simp [h1, h2]

/-- Claim C5, witness: filtering the report holding `foo_bar` by `FOO` and
by `foo` produces identical results. -/
theorem claim_C5_witness :
    filterFunctions "FOO" [fooBarMetric] = filterFunctions "foo" [fooBarMetric] :=
  (claim_C5 "FOO" "foo" [fooBarMetric]).2.1 (by decide)

instance : IsTotal FunctionMetrics (fun a b => b.ccn ≤ a.ccn) :=
  ⟨fun a b => le_total b.ccn a.ccn⟩

instance : IsTrans FunctionMetrics (fun a b => b.ccn ≤ a.ccn) :=
  ⟨fun _ _ _ h1 h2 => le_trans h2 h1⟩

instance : IsTotal FileMetrics (fun a b => b.avg_ccn ≤ a.avg_ccn) :=
  ⟨fun a b => le_total b.avg_ccn a.avg_ccn⟩

instance : IsTrans FileMetrics (fun a b => b.avg_ccn ≤ a.avg_ccn) :=
  ⟨fun _ _ _ h1 h2 => le_trans h2 h1⟩

/-- Inserting an element of a key class before which every class member may
stand puts it in front of the class: the members skipped by the insertion
are exactly those the element must not precede, and none of them is in the
class. -/
theorem filter_orderedInsert (r : α → α → Prop) [DecidableRel r] (p : α → Bool)
    (a : α) (l : List α) (hpa : p a = true) (hcl : ∀ b, p b = true → r a b) :
    (l.orderedInsert r a).filter p = a :: l.filter p := by
  induction l with
  | nil => simp [hpa]
  | cons b l ih =>
    by_cases hr : r a b
    · simp [List.orderedInsert, hr, hpa]
    · have hpb : p b = false := by
        cases hb : p b
        · rfl
        · exact absurd (hcl b hb) hr
      simp [List.orderedInsert, hr, hpb, ih]

/-- Inserting an element outside the key class leaves the class filter
unchanged. -/
theorem filter_orderedInsert_neg (r : α → α → Prop) [DecidableRel r] (p : α → Bool)
    (a : α) (l : List α) (hpa : p a = false) :
    (l.orderedInsert r a).filter p = l.filter p := by
  induction l with
  | nil => simp [hpa]
  | cons b l ih =>
    by_cases hr : r a b
    · simp [List.orderedInsert, hr, hpa]
    · cases hb : p b <;> simp [List.orderedInsert, hr, List.filter_cons, hb, ih]

/-- Stability of `insertionSort` on key classes: when all members of the
class `p` relate pairwise under `r`, sorting preserves the class filter,
hence the relative order of equal-keyed elements. -/
theorem filter_insertionSort (r : α → α → Prop) [DecidableRel r] (p : α → Bool)
    (hcl : ∀ a b, p a = true → p b = true → r a b) (l : List α) :
    (l.insertionSort r).filter p = l.filter p := by
  induction l with
  | nil => rfl
  | cons a l ih =>
    cases hpa : p a with
    | true =>
      rw [List.insertionSort,
        filter_orderedInsert r p a _ hpa (fun b hb => hcl a b hpa hb), ih,
        List.filter_cons_of_pos hpa]
    | false =>
      rw [List.insertionSort, filter_orderedInsert_neg r p a _ hpa, ih,
        List.filter_cons_of_neg (by simp [hpa])]

/-- Claim C6: under the `ccn` sort key the displayed function list is the
filtered list sorted by `ccn` descending and the displayed file list is the
file list sorted by `avgCcn` descending, both stably: every equal-key class
keeps its relative order from the (filtered) input; and for functions with
`ccn` values `[3, 9, 9, 1]`, both nines precede the three and the one while
keeping their own order. -/
theorem claim_C6 (r : LizardResult) (ft : String) :
    List.Sorted (fun a b : FunctionMetrics => b.ccn ≤ a.ccn) (update_tables r ft "ccn").1
    ∧ (∀ c : Nat, ((update_tables r ft "ccn").1.filter fun f => f.ccn == c) =
        ((filterFunctions ft r.functions).filter fun f => f.ccn == c))
    ∧ List.Sorted (fun a b : FileMetrics => b.avg_ccn ≤ a.avg_ccn) (update_tables r ft "ccn").2
    ∧ (∀ c : ℚ, ((update_tables r ft "ccn").2.filter fun f => decide (f.avg_ccn = c)) =
        (r.files.filter fun f => decide (f.avg_ccn = c)))
    ∧ (update_tables demoReport "" "ccn").1 = [demoF2, demoF3, demoF1, demoF4] := by
  have hfn : (update_tables r ft "ccn").1 =
      (filterFunctions ft r.functions).insertionSort (fun a b => b.ccn ≤ a.ccn) := rfl
  have hfl : (update_tables r ft "ccn").2 =
      r.files.insertionSort (fun a b => b.avg_ccn ≤ a.avg_ccn) := rfl
  refine ⟨?_, ?_, ?_, ?_, by decide⟩
  · rw [hfn]
    exact List.sorted_insertionSort _ _
  · intro c
    rw [hfn]
    refine filter_insertionSort _ _ ?_ _
    intro a b ha hb
    have ha' : a.ccn = c := by simpa using ha
    have hb' : b.ccn = c := by simpa using hb
    simp [ha', hb']
  · rw [hfl]
    exact List.sorted_insertionSort _ _
  · intro c
    rw [hfl]
    refine filter_insertionSort _ _ ?_ _
    intro a b ha hb
    have ha' : a.avg_ccn = c := by simpa using ha
    have hb' : b.avg_ccn = c := by simpa using hb
    simp [ha', hb']

/-- Claim C8: the code window is the slice of the file between
`start = max(0, startLine-1)` and `end = min(fileLineCount, endLine)`; it
has `end - start` lines; with a one-based `startLine` every returned pair
`(i, x)` carries the original one-based number of its line (`x` is line `i`
of the file); and requesting lines 1 to 1000000 of a ten-line file returns
exactly the ten lines, clipped, without error. -/
theorem claim_C8 (lines : List String) (s e : Nat) :
    extractWindow lines s e =
      ((lines.drop (s - 1)).take (min lines.length e - (s - 1))).enumFrom s
    ∧ (extractWindow lines s e).length = min lines.length e - (s - 1)
    ∧ (1 ≤ s → ∀ i x, (i, x) ∈ extractWindow lines s e →
        s ≤ i ∧ lines[i - 1]? = some x)
    ∧ extractWindow tenLines 1 1000000 = tenLines.enumFrom 1
    ∧ tenLines.length = 10 := by
  refine ⟨rfl, ?_, ?_, by decide, rfl⟩
  · simp only [extractWindow, List.enumFrom_length, List.length_take,
      List.length_drop]
    omega
  · intro hs i x hm
    simp only [extractWindow] at hm
    obtain ⟨h1, h2⟩ := List.mk_mem_enumFrom_iff_le_and_getElem?_sub.mp hm
    refine ⟨h1, ?_⟩
    rw [List.getElem?_take] at h2
    by_cases hc : i - s < min lines.length e - (s - 1)
    · rw [if_pos hc, List.getElem?_drop] at h2
      have hidx : s - 1 + (i - s) = i - 1 := by omega
      rw [hidx] at h2
      exact h2
    · rw [if_neg hc] at h2
      cases h2

/-- Claim C8, witness: in the window of lines 2 to 3 of the ten-line file,
the pair numbered 2 carries line 2 of the file. -/
theorem claim_C8_witness : (2 : Nat) ≤ 2 ∧ tenLines[2 - 1]? = some "line02" :=
  (claim_C8 tenLines 2 3).2.2.1 (by decide) 2 "line02" (by decide)

/-- Taking while `p` holds over `d ++ c :: r` with `p` true on `d` and
false at `c` yields exactly `d`. -/
theorem takeWhile_append_of_all (p : α → Bool) (d : List α) (c : α) (r : List α)
    (hd : d.all p = true) (hc : p c = false) :
    (d ++ c :: r).takeWhile p = d := by
  induction d with
  | nil => simp [List.takeWhile_cons, hc]
  | cons a d ih =>
    simp only [List.all_cons, Bool.and_eq_true] at hd
    simp [List.takeWhile_cons, hd.1, ih hd.2]

/-- Dropping while `p` holds over `d ++ c :: r` with `p` true on `d` and
false at `c` yields exactly `c :: r`. -/
theorem dropWhile_append_of_all (p : α → Bool) (d : List α) (c : α) (r : List α)
    (hd : d.all p = true) (hc : p c = false) :
    (d ++ c :: r).dropWhile p = c :: r := by
  induction d with
  | nil => simp [List.dropWhile_cons, hc]
  | cons a d ih =>
    simp only [List.all_cons, Bool.and_eq_true] at hd
    simp [List.dropWhile_cons, hd.1, ih hd.2]

/-- A maximal run of `p` followed by a violation splits a span exactly. -/
theorem span_append_of_all (p : α → Bool) (d : List α) (c : α) (r : List α)
    (hd : d.all p = true) (hc : p c = false) :
    (d ++ c :: r).span p = (d, c :: r) := by
  rw [List.span_eq_take_drop, takeWhile_append_of_all _ _ _ _ hd hc,
    dropWhile_append_of_all _ _ _ _ hd hc]

/-- A maximal digit run followed by a non-digit splits a span exactly. -/
theorem span_digits_append (d : List Char) (c : Char) (r : List Char)
    (hd : d.all Char.isDigit = true) (hc : c.isDigit = false) :
    (d ++ c :: r).span Char.isDigit = (d, c :: r) :=
  span_append_of_all _ _ _ _ hd hc

/-- A nonempty list is not `isEmpty`. -/
theorem isEmpty_eq_false_of_ne_nil {l : List α} (h : l ≠ []) : l.isEmpty = false := by
  cases l
  · exact absurd rfl h
  · rfl

/-- A whitespace character is not a digit. -/
theorem not_digit_of_space (c : Char) (h : isSpace c = true) : c.isDigit = false := by
  simp only [isSpace, Bool.or_eq_true, decide_eq_true_eq] at h
  rcases h with ⟨⟨⟨⟨h | h⟩ | h⟩ | h⟩ | h⟩ | h <;> subst h <;> decide

/-- A digit character is not whitespace. -/
theorem not_space_of_digit (c : Char) (h : c.isDigit = true) : isSpace c = false := by
  cases hs : isSpace c
  · rfl
  · rw [not_digit_of_space c hs] at h
    cases h

/-- Reading the regex token `(\d+)` over a nonempty digit run followed by a
non-digit consumes exactly the run. -/
theorem readNat_run (d : List Char) (c : Char) (r : List Char)
    (hd : d.all Char.isDigit = true) (hne : d ≠ []) (hc : c.isDigit = false) :
    readNat (d ++ c :: r) = some (digitsToNat d, c :: r) := by
  unfold readNat
  rw [span_append_of_all _ _ _ _ hd hc]
  simp [isEmpty_eq_false_of_ne_nil hne]

/-- Reading the regex token `\s+` over a nonempty whitespace run followed
by a non-space consumes exactly the run. -/
theorem readWs_run (w : List Char) (c : Char) (r : List Char)
    (hw : w.all isSpace = true) (hne : w ≠ []) (hc : isSpace c = false) :
    readWs (w ++ c :: r) = some (w, c :: r) := by
  unfold readWs
  rw [span_append_of_all _ _ _ _ hw hc]
  simp [isEmpty_eq_false_of_ne_nil hne]

/-- `tryGroupAt` succeeds on a well-formed `@digits-digits@rest` group with
nonempty `rest`, returning the two numbers and the remainder. -/
theorem tryGroupAt_grp (d1 d2 rest : List Char)
    (h1 : d1 ≠ []) (h1d : d1.all Char.isDigit = true)
    (h2 : d2 ≠ []) (h2d : d2.all Char.isDigit = true)
    (hr : rest ≠ []) :
    tryGroupAt ('@' :: (d1 ++ '-' :: (d2 ++ '@' :: rest))) =
      some (digitsToNat d1, digitsToNat d2, rest) := by
  have hs1 : (d1 ++ '-' :: (d2 ++ '@' :: rest)).span Char.isDigit =
      (d1, '-' :: (d2 ++ '@' :: rest)) :=
    span_digits_append _ _ _ h1d (by decide)
  have hs2 : (d2 ++ '@' :: rest).span Char.isDigit = (d2, '@' :: rest) :=
    span_digits_append _ _ _ h2d (by decide)
  have he1 : d1.isEmpty = false := by
    cases d1
    · exact absurd rfl h1
    · rfl
  have he2 : d2.isEmpty = false := by
    cases d2
    · exact absurd rfl h2
    · rfl
  have her : rest.isEmpty = false := by
    cases rest
    · exact absurd rfl hr
    · rfl
  simp only [tryGroupAt, hs1, hs2, he1, he2, her, Bool.false_eq_true, if_false]

/-- The lazy scan finds the group `G` placed right after the candidate name
`n`, provided no earlier scanned position carries a group: the name
accumulated so far is prepended to `n`. -/
theorem matchTailAux_scan (G : List Char) (va vb : Nat) (vp : List Char)
    (hG : tryGroupAt G = some (va, vb, vp)) :
    ∀ (n acc : List Char), acc ≠ [] →
    (∀ i, i < n.length → tryGroupAt ((n ++ G).drop i) = none) →
    matchTailAux acc (n ++ G) = some (acc.reverse ++ n, va, vb, vp) := by
  intro n
  induction n with
  | nil =>
    intro acc hacc _
    cases G with
    | nil => simp [tryGroupAt] at hG
    | cons c rest =>
      cases acc with
      | nil => exact absurd rfl hacc
      | cons a as => simp [matchTailAux, hG]
  | cons c n2 ih =>
    intro acc hacc hnone
    have h0 : tryGroupAt (c :: (n2 ++ G)) = none := by
      simpa using hnone 0 (by simp)
    have hstep : matchTailAux acc (c :: (n2 ++ G)) = matchTailAux (c :: acc) (n2 ++ G) := by
      cases acc with
      | nil => exact absurd rfl hacc
      | cons a as => simp [matchTailAux, h0]
    rw [List.cons_append, hstep,
      ih (c :: acc) (by simp) (fun i hi => by
        simpa [List.drop_succ_cons] using hnone (i + 1) (by simpa using Nat.succ_lt_succ hi))]
    simp

/-- The trailing-field matcher splits at the leftmost eligible
`@digits-digits@` group: general form used both for the claim about the
trailing field and for the full function-line theorem. -/
theorem matchTail_leftmost (n d1 d2 rest : List Char)
    (hn : n ≠ [])
    (h1 : d1 ≠ []) (h1d : d1.all Char.isDigit = true)
    (h2 : d2 ≠ []) (h2d : d2.all Char.isDigit = true)
    (hr : rest ≠ [])
    (hfirst : ∀ i, 1 ≤ i → i < n.length →
      tryGroupAt ((n ++ '@' :: (d1 ++ '-' :: (d2 ++ '@' :: rest))).drop i) = none) :
    matchTail (n ++ '@' :: (d1 ++ '-' :: (d2 ++ '@' :: rest))) =
      some (n, digitsToNat d1, digitsToNat d2, rest) := by
  have hG : tryGroupAt ('@' :: (d1 ++ '-' :: (d2 ++ '@' :: rest))) =
      some (digitsToNat d1, digitsToNat d2, rest) :=
    tryGroupAt_grp d1 d2 rest h1 h1d h2 h2d hr
  cases n with
  | nil => exact absurd rfl hn
  | cons c n2 =>
    have hstep : matchTail ((c :: n2) ++ ('@' :: (d1 ++ '-' :: (d2 ++ '@' :: rest)))) =
        matchTailAux [c] (n2 ++ ('@' :: (d1 ++ '-' :: (d2 ++ '@' :: rest)))) := by
      cases hg : tryGroupAt (c :: (n2 ++ ('@' :: (d1 ++ '-' :: (d2 ++ '@' :: rest))))) with
      | none => simp [matchTail, matchTailAux, hg]
      | some val =>
        obtain ⟨a, b, p⟩ := val
        simp [matchTail, matchTailAux, hg]
    rw [show (c :: n2) ++ ('@' :: (d1 ++ '-' :: (d2 ++ '@' :: rest))) =
        c :: (n2 ++ ('@' :: (d1 ++ '-' :: (d2 ++ '@' :: rest)))) from rfl] at hstep
    rw [List.cons_append, hstep,
      matchTailAux_scan _ _ _ _ hG n2 [c] (by simp) (fun i hi => by
        simpa [List.drop_succ_cons] using
          hfirst (i + 1) (by omega) (by simp; omega))]
    simp

/-- Claim C10: the function-line trailing field splits at the leftmost
eligible `@digits-digits@` group.  Whenever the field decomposes as a
nonempty name `n` followed by `@d1-d2@rest` with nonempty digit runs and a
nonempty remainder, and no group starts at an earlier position of the field
at or after its second character, the matcher returns exactly `n` as the
name, the two numbers as the line bounds, and everything after the closing
marker (possibly holding further groups) as the file path. -/
theorem claim_C10 (n d1 d2 rest : List Char)
    (hn : n ≠ [])
    (h1 : d1 ≠ []) (h1d : d1.all Char.isDigit = true)
    (h2 : d2 ≠ []) (h2d : d2.all Char.isDigit = true)
    (hr : rest ≠ [])
    (hfirst : ∀ i, 1 ≤ i → i < n.length →
      tryGroupAt ((n ++ '@' :: (d1 ++ '-' :: (d2 ++ '@' :: rest))).drop i) = none) :
    matchTail (n ++ '@' :: (d1 ++ '-' :: (d2 ++ '@' :: rest))) =
      some (n, digitsToNat d1, digitsToNat d2, rest) :=
  matchTail_leftmost n d1 d2 rest hn h1 h1d h2 h2d hr hfirst

/-- Claim C10, witness: in the trailing field `a@1-2@b@3-4@c`, holding two
groups, the split happens at the first: name `a`, lines 1 to 2, and path
`b@3-4@c`. -/
theorem claim_C10_witness :
    matchTail ("a@1-2@b@3-4@c".toList) =
      some ("a".toList, 1, 2, "b@3-4@c".toList) := by
  have h := claim_C10 [ 'a'] [ '1'] [ '2'] ("b@3-4@c".toList)
    (by decide) (by decide) (by decide) (by decide) (by decide) (by decide)
    (fun i hi1 hi2 => by simp at hi2; omega)
  exact h

/-- The function-line pattern on a fully decomposed line: five digit
runs separated by whitespace runs, a final whitespace run, then a name
and a leftmost location group.  The captures are exactly the runs. -/
theorem func_pattern_complete
    (d1 d2 d3 d4 d5 w1 w2 w3 w4 w5 name a b path : List Char)
    (hd1 : d1.all Char.isDigit = true) (hn1 : d1 ≠ [])
    (hd2 : d2.all Char.isDigit = true) (hn2 : d2 ≠ [])
    (hd3 : d3.all Char.isDigit = true) (hn3 : d3 ≠ [])
    (hd4 : d4.all Char.isDigit = true) (hn4 : d4 ≠ [])
    (hd5 : d5.all Char.isDigit = true) (hn5 : d5 ≠ [])
    (hw1 : w1.all isSpace = true) (hm1 : w1 ≠ [])
    (hw2 : w2.all isSpace = true) (hm2 : w2 ≠ [])
    (hw3 : w3.all isSpace = true) (hm3 : w3 ≠ [])
    (hw4 : w4.all isSpace = true) (hm4 : w4 ≠ [])
    (hw5 : w5.all isSpace = true) (hm5 : w5 ≠ [])
    (hname : name ≠ [])
    (hnhead : ∀ c, name.head? = some c → isSpace c = false)
    (ha : a.all Char.isDigit = true) (hna : a ≠ [])
    (hb : b.all Char.isDigit = true) (hnb : b ≠ [])
    (hpath : path ≠ [])
    (hfirst : ∀ i, 1 ≤ i → i < name.length →
      tryGroupAt ((name ++ '@' :: (a ++ '-' :: (b ++ '@' :: path))).drop i) = none) :
    func_pattern (d1 ++ (w1 ++ (d2 ++ (w2 ++ (d3 ++ (w3 ++ (d4 ++ (w4 ++
        (d5 ++ (w5 ++ (name ++ '@' :: (a ++ '-' :: (b ++ '@' :: path))))))))))))) =
      some { nloc := digitsToNat d1, ccn := digitsToNat d2,
             token_count := digitsToNat d3, param_count := digitsToNat d4,
             length := digitsToNat d5, name := String.mk name,
             start_line := digitsToNat a, end_line := digitsToNat b,
             file_path := String.mk path } := by
  obtain ⟨e1, d1t, rfl⟩ := List.exists_cons_of_ne_nil hn1
  obtain ⟨e2, d2t, rfl⟩ := List.exists_cons_of_ne_nil hn2
  obtain ⟨e3, d3t, rfl⟩ := List.exists_cons_of_ne_nil hn3
  obtain ⟨e4, d4t, rfl⟩ := List.exists_cons_of_ne_nil hn4
  obtain ⟨e5, d5t, rfl⟩ := List.exists_cons_of_ne_nil hn5
  obtain ⟨c1, w1t, rfl⟩ := List.exists_cons_of_ne_nil hm1
  obtain ⟨c2, w2t, rfl⟩ := List.exists_cons_of_ne_nil hm2
  obtain ⟨c3, w3t, rfl⟩ := List.exists_cons_of_ne_nil hm3
  obtain ⟨c4, w4t, rfl⟩ := List.exists_cons_of_ne_nil hm4
  obtain ⟨c5, w5t, rfl⟩ := List.exists_cons_of_ne_nil hm5
  obtain ⟨cn, namet, rfl⟩ := List.exists_cons_of_ne_nil hname
  have hE1 : e1.isDigit = true := by
    have h := hd1
    simp only [List.all_cons, Bool.and_eq_true] at h
    exact h.1
  have hE2 : e2.isDigit = true := by
    have h := hd2
    simp only [List.all_cons, Bool.and_eq_true] at h
    exact h.1
  have hE3 : e3.isDigit = true := by
    have h := hd3
    simp only [List.all_cons, Bool.and_eq_true] at h
    exact h.1
  have hE4 : e4.isDigit = true := by
    have h := hd4
    simp only [List.all_cons, Bool.and_eq_true] at h
    exact h.1
  have hE5 : e5.isDigit = true := by
    have h := hd5
    simp only [List.all_cons, Bool.and_eq_true] at h
    exact h.1
  have hC1 : isSpace c1 = true := by
    have h := hw1
    simp only [List.all_cons, Bool.and_eq_true] at h
    exact h.1
  have hC2 : isSpace c2 = true := by
    have h := hw2
    simp only [List.all_cons, Bool.and_eq_true] at h
    exact h.1
  have hC3 : isSpace c3 = true := by
    have h := hw3
    simp only [List.all_cons, Bool.and_eq_true] at h
    exact h.1
  have hC4 : isSpace c4 = true := by
    have h := hw4
    simp only [List.all_cons, Bool.and_eq_true] at h
    exact h.1
  have hC5 : isSpace c5 = true := by
    have h := hw5
    simp only [List.all_cons, Bool.and_eq_true] at h
    exact h.1
  have hCn : isSpace cn = false := hnhead cn rfl
  have hdrop : List.dropWhile isSpace ((e1 :: d1t) ++ ((c1 :: w1t) ++ ((e2 :: d2t) ++ ((c2 :: w2t) ++ ((e3 :: d3t) ++ ((c3 :: w3t) ++ ((e4 :: d4t) ++ ((c4 :: w4t) ++ ((e5 :: d5t) ++ ((c5 :: w5t) ++ ((cn :: namet) ++ ('@' :: (a ++ '-' :: (b ++ '@' :: path)))))))))))))) = ((e1 :: d1t) ++ ((c1 :: w1t) ++ ((e2 :: d2t) ++ ((c2 :: w2t) ++ ((e3 :: d3t) ++ ((c3 :: w3t) ++ ((e4 :: d4t) ++ ((c4 :: w4t) ++ ((e5 :: d5t) ++ ((c5 :: w5t) ++ ((cn :: namet) ++ ('@' :: (a ++ '-' :: (b ++ '@' :: path)))))))))))))) := by
    rw [List.cons_append, List.dropWhile_cons]
    simp [not_space_of_digit e1 hE1, List.cons_append]
  have st1 : readNat ((e1 :: d1t) ++ ((c1 :: w1t) ++ ((e2 :: d2t) ++ ((c2 :: w2t) ++ ((e3 :: d3t) ++ ((c3 :: w3t) ++ ((e4 :: d4t) ++ ((c4 :: w4t) ++ ((e5 :: d5t) ++ ((c5 :: w5t) ++ ((cn :: namet) ++ ('@' :: (a ++ '-' :: (b ++ '@' :: path)))))))))))))) = some (digitsToNat (e1 :: d1t), ((c1 :: w1t) ++ ((e2 :: d2t) ++ ((c2 :: w2t) ++ ((e3 :: d3t) ++ ((c3 :: w3t) ++ ((e4 :: d4t) ++ ((c4 :: w4t) ++ ((e5 :: d5t) ++ ((c5 :: w5t) ++ ((cn :: namet) ++ ('@' :: (a ++ '-' :: (b ++ '@' :: path)))))))))))))) :=
    readNat_run (e1 :: d1t) c1 (w1t ++ ((e2 :: d2t) ++ ((c2 :: w2t) ++ ((e3 :: d3t) ++ ((c3 :: w3t) ++ ((e4 :: d4t) ++ ((c4 :: w4t) ++ ((e5 :: d5t) ++ ((c5 :: w5t) ++ ((cn :: namet) ++ ('@' :: (a ++ '-' :: (b ++ '@' :: path))))))))))))) hd1 (List.cons_ne_nil _ _) (not_digit_of_space c1 hC1)
  have st2 : readWs ((c1 :: w1t) ++ ((e2 :: d2t) ++ ((c2 :: w2t) ++ ((e3 :: d3t) ++ ((c3 :: w3t) ++ ((e4 :: d4t) ++ ((c4 :: w4t) ++ ((e5 :: d5t) ++ ((c5 :: w5t) ++ ((cn :: namet) ++ ('@' :: (a ++ '-' :: (b ++ '@' :: path))))))))))))) = some ((c1 :: w1t), ((e2 :: d2t) ++ ((c2 :: w2t) ++ ((e3 :: d3t) ++ ((c3 :: w3t) ++ ((e4 :: d4t) ++ ((c4 :: w4t) ++ ((e5 :: d5t) ++ ((c5 :: w5t) ++ ((cn :: namet) ++ ('@' :: (a ++ '-' :: (b ++ '@' :: path))))))))))))) :=
    readWs_run (c1 :: w1t) e2 (d2t ++ ((c2 :: w2t) ++ ((e3 :: d3t) ++ ((c3 :: w3t) ++ ((e4 :: d4t) ++ ((c4 :: w4t) ++ ((e5 :: d5t) ++ ((c5 :: w5t) ++ ((cn :: namet) ++ ('@' :: (a ++ '-' :: (b ++ '@' :: path)))))))))))) hw1 (List.cons_ne_nil _ _) (not_space_of_digit e2 hE2)
  have st3 : readNat ((e2 :: d2t) ++ ((c2 :: w2t) ++ ((e3 :: d3t) ++ ((c3 :: w3t) ++ ((e4 :: d4t) ++ ((c4 :: w4t) ++ ((e5 :: d5t) ++ ((c5 :: w5t) ++ ((cn :: namet) ++ ('@' :: (a ++ '-' :: (b ++ '@' :: path)))))))))))) = some (digitsToNat (e2 :: d2t), ((c2 :: w2t) ++ ((e3 :: d3t) ++ ((c3 :: w3t) ++ ((e4 :: d4t) ++ ((c4 :: w4t) ++ ((e5 :: d5t) ++ ((c5 :: w5t) ++ ((cn :: namet) ++ ('@' :: (a ++ '-' :: (b ++ '@' :: path)))))))))))) :=
    readNat_run (e2 :: d2t) c2 (w2t ++ ((e3 :: d3t) ++ ((c3 :: w3t) ++ ((e4 :: d4t) ++ ((c4 :: w4t) ++ ((e5 :: d5t) ++ ((c5 :: w5t) ++ ((cn :: namet) ++ ('@' :: (a ++ '-' :: (b ++ '@' :: path))))))))))) hd2 (List.cons_ne_nil _ _) (not_digit_of_space c2 hC2)
  have st4 : readWs ((c2 :: w2t) ++ ((e3 :: d3t) ++ ((c3 :: w3t) ++ ((e4 :: d4t) ++ ((c4 :: w4t) ++ ((e5 :: d5t) ++ ((c5 :: w5t) ++ ((cn :: namet) ++ ('@' :: (a ++ '-' :: (b ++ '@' :: path))))))))))) = some ((c2 :: w2t), ((e3 :: d3t) ++ ((c3 :: w3t) ++ ((e4 :: d4t) ++ ((c4 :: w4t) ++ ((e5 :: d5t) ++ ((c5 :: w5t) ++ ((cn :: namet) ++ ('@' :: (a ++ '-' :: (b ++ '@' :: path))))))))))) :=
    readWs_run (c2 :: w2t) e3 (d3t ++ ((c3 :: w3t) ++ ((e4 :: d4t) ++ ((c4 :: w4t) ++ ((e5 :: d5t) ++ ((c5 :: w5t) ++ ((cn :: namet) ++ ('@' :: (a ++ '-' :: (b ++ '@' :: path)))))))))) hw2 (List.cons_ne_nil _ _) (not_space_of_digit e3 hE3)
  have st5 : readNat ((e3 :: d3t) ++ ((c3 :: w3t) ++ ((e4 :: d4t) ++ ((c4 :: w4t) ++ ((e5 :: d5t) ++ ((c5 :: w5t) ++ ((cn :: namet) ++ ('@' :: (a ++ '-' :: (b ++ '@' :: path)))))))))) = some (digitsToNat (e3 :: d3t), ((c3 :: w3t) ++ ((e4 :: d4t) ++ ((c4 :: w4t) ++ ((e5 :: d5t) ++ ((c5 :: w5t) ++ ((cn :: namet) ++ ('@' :: (a ++ '-' :: (b ++ '@' :: path)))))))))) :=
    readNat_run (e3 :: d3t) c3 (w3t ++ ((e4 :: d4t) ++ ((c4 :: w4t) ++ ((e5 :: d5t) ++ ((c5 :: w5t) ++ ((cn :: namet) ++ ('@' :: (a ++ '-' :: (b ++ '@' :: path))))))))) hd3 (List.cons_ne_nil _ _) (not_digit_of_space c3 hC3)
  have st6 : readWs ((c3 :: w3t) ++ ((e4 :: d4t) ++ ((c4 :: w4t) ++ ((e5 :: d5t) ++ ((c5 :: w5t) ++ ((cn :: namet) ++ ('@' :: (a ++ '-' :: (b ++ '@' :: path))))))))) = some ((c3 :: w3t), ((e4 :: d4t) ++ ((c4 :: w4t) ++ ((e5 :: d5t) ++ ((c5 :: w5t) ++ ((cn :: namet) ++ ('@' :: (a ++ '-' :: (b ++ '@' :: path))))))))) :=
    readWs_run (c3 :: w3t) e4 (d4t ++ ((c4 :: w4t) ++ ((e5 :: d5t) ++ ((c5 :: w5t) ++ ((cn :: namet) ++ ('@' :: (a ++ '-' :: (b ++ '@' :: path)))))))) hw3 (List.cons_ne_nil _ _) (not_space_of_digit e4 hE4)
  have st7 : readNat ((e4 :: d4t) ++ ((c4 :: w4t) ++ ((e5 :: d5t) ++ ((c5 :: w5t) ++ ((cn :: namet) ++ ('@' :: (a ++ '-' :: (b ++ '@' :: path)))))))) = some (digitsToNat (e4 :: d4t), ((c4 :: w4t) ++ ((e5 :: d5t) ++ ((c5 :: w5t) ++ ((cn :: namet) ++ ('@' :: (a ++ '-' :: (b ++ '@' :: path)))))))) :=
    readNat_run (e4 :: d4t) c4 (w4t ++ ((e5 :: d5t) ++ ((c5 :: w5t) ++ ((cn :: namet) ++ ('@' :: (a ++ '-' :: (b ++ '@' :: path))))))) hd4 (List.cons_ne_nil _ _) (not_digit_of_space c4 hC4)
  have st8 : readWs ((c4 :: w4t) ++ ((e5 :: d5t) ++ ((c5 :: w5t) ++ ((cn :: namet) ++ ('@' :: (a ++ '-' :: (b ++ '@' :: path))))))) = some ((c4 :: w4t), ((e5 :: d5t) ++ ((c5 :: w5t) ++ ((cn :: namet) ++ ('@' :: (a ++ '-' :: (b ++ '@' :: path))))))) :=
    readWs_run (c4 :: w4t) e5 (d5t ++ ((c5 :: w5t) ++ ((cn :: namet) ++ ('@' :: (a ++ '-' :: (b ++ '@' :: path)))))) hw4 (List.cons_ne_nil _ _) (not_space_of_digit e5 hE5)
  have st9 : readNat ((e5 :: d5t) ++ ((c5 :: w5t) ++ ((cn :: namet) ++ ('@' :: (a ++ '-' :: (b ++ '@' :: path)))))) = some (digitsToNat (e5 :: d5t), ((c5 :: w5t) ++ ((cn :: namet) ++ ('@' :: (a ++ '-' :: (b ++ '@' :: path)))))) :=
    readNat_run (e5 :: d5t) c5 (w5t ++ ((cn :: namet) ++ ('@' :: (a ++ '-' :: (b ++ '@' :: path))))) hd5 (List.cons_ne_nil _ _) (not_digit_of_space c5 hC5)
  have st10 : readWs ((c5 :: w5t) ++ ((cn :: namet) ++ ('@' :: (a ++ '-' :: (b ++ '@' :: path))))) = some ((c5 :: w5t), ((cn :: namet) ++ ('@' :: (a ++ '-' :: (b ++ '@' :: path))))) :=
    readWs_run (c5 :: w5t) cn (namet ++ ('@' :: (a ++ '-' :: (b ++ '@' :: path)))) hw5 (List.cons_ne_nil _ _) hCn
  have hmt : matchTail ((cn :: namet) ++ ('@' :: (a ++ '-' :: (b ++ '@' :: path)))) =
      some ((cn :: namet), digitsToNat a, digitsToNat b, path) :=
    matchTail_leftmost (cn :: namet) a b path (List.cons_ne_nil _ _) hna ha hnb hb hpath hfirst
  have etail : funcTailBT (c5 :: w5t) ((cn :: namet) ++ ('@' :: (a ++ '-' :: (b ++ '@' :: path)))) ((c5 :: w5t).length) =
      some ((cn :: namet), digitsToNat a, digitsToNat b, path) := by
    simp only [List.length_cons, funcTailBT, List.drop_succ_cons,
      List.drop_length, List.nil_append, hmt]
  simp only [func_pattern, hdrop, st1, st2, st3, st4, st5, st6, st7, st8, st9, st10, etail, Option.some_bind,
    Option.map_some']


/-- Claim C2: while in the function section, a line of five
whitespace-separated non-negative integers followed by whitespace and a
trailing field `name@startLine-endLine@filePath` (split at its leftmost
location group) parses into a `FunctionMetrics` holding exactly those nine
values in that order; concretely, the line
`10  3  45  2  12  foo@5-16@src/a.py` after the function-section header
yields `nloc = 10`, `ccn = 3`, `tokenCount = 45`, `paramCount = 2`,
`length = 12`, `name = foo`, `startLine = 5`, `endLine = 16`,
`filePath = src/a.py`. -/
theorem claim_C2 :
    (∀ (d1 d2 d3 d4 d5 w1 w2 w3 w4 w5 name a b path : List Char),
      d1.all Char.isDigit = true → d1 ≠ [] →
      d2.all Char.isDigit = true → d2 ≠ [] →
      d3.all Char.isDigit = true → d3 ≠ [] →
      d4.all Char.isDigit = true → d4 ≠ [] →
      d5.all Char.isDigit = true → d5 ≠ [] →
      w1.all isSpace = true → w1 ≠ [] →
      w2.all isSpace = true → w2 ≠ [] →
      w3.all isSpace = true → w3 ≠ [] →
      w4.all isSpace = true → w4 ≠ [] →
      w5.all isSpace = true → w5 ≠ [] →
      name ≠ [] →
      (∀ c, name.head? = some c → isSpace c = false) →
      a.all Char.isDigit = true → a ≠ [] →
      b.all Char.isDigit = true → b ≠ [] →
      path ≠ [] →
      (∀ i, 1 ≤ i → i < name.length →
        tryGroupAt ((name ++ '@' :: (a ++ '-' :: (b ++ '@' :: path))).drop i) = none) →
      func_pattern (d1 ++ (w1 ++ (d2 ++ (w2 ++ (d3 ++ (w3 ++ (d4 ++ (w4 ++
          (d5 ++ (w5 ++ (name ++ '@' :: (a ++ '-' :: (b ++ '@' :: path))))))))))))) =
        some { nloc := digitsToNat d1, ccn := digitsToNat d2,
               token_count := digitsToNat d3, param_count := digitsToNat d4,
               length := digitsToNat d5, name := String.mk name,
               start_line := digitsToNat a, end_line := digitsToNat b,
               file_path := String.mk path })
    ∧ parse_lizard_output c2Input = some { emptyResult with functions := [c2Expected] } :=
  ⟨fun d1 d2 d3 d4 d5 w1 w2 w3 w4 w5 name a b path
      h1 h2 h3 h4 h5 h6 h7 h8 h9 h10 h11 h12 h13 h14 h15 h16 h17 h18 h19 h20
      h21 h22 h23 h24 h25 h26 h27 h28 =>
    func_pattern_complete d1 d2 d3 d4 d5 w1 w2 w3 w4 w5 name a b path
      h1 h2 h3 h4 h5 h6 h7 h8 h9 h10 h11 h12 h13 h14 h15 h16 h17 h18 h19 h20
      h21 h22 h23 h24 h25 h26 h27 h28,
    by decide⟩

/-- Claim C2, witness: the specification line decomposed into its runs
matches with exactly the expected captures, and the two-line input with the
function header parses to the expected report. -/
theorem claim_C2_witness :
    func_pattern ("10  3  45  2  12  foo@5-16@src/a.py".toList) = some c2Expected
    ∧ parse_lizard_output c2Input = some { emptyResult with functions := [c2Expected] } := by
  have h := claim_C2.1 ("10".toList) ("3".toList) ("45".toList) ("2".toList)
    ("12".toList) ("  ".toList) ("  ".toList) ("  ".toList) ("  ".toList)
    ("  ".toList) ("foo".toList) ("5".toList) ("16".toList) ("src/a.py".toList)
    (by decide) (by decide) (by decide) (by decide) (by decide) (by decide)
    (by decide) (by decide) (by decide) (by decide) (by decide) (by decide)
    (by decide) (by decide) (by decide) (by decide) (by decide) (by decide)
    (by decide) (by decide) (by decide)
    (fun c hc => by cases hc; decide)
    (by decide) (by decide) (by decide) (by decide) (by decide)
    (fun i hi1 hi2 => by
      have h3 : i < 3 := by simpa using hi2
      interval_cases i <;> decide)
  exact ⟨h, claim_C2.2⟩

/-- A line starting with a character that is neither a digit nor
whitespace never matches the totals pattern. -/
theorem total_pattern_cons_none (c : Char) (t : List Char)
    (hd : c.isDigit = false) (hs : isSpace c = false) :
    total_pattern (c :: t) = none := by
  unfold total_pattern
  simp [readNat, List.dropWhile_cons, List.span_eq_take_drop,
    List.takeWhile_cons, hd, hs]

/-- A line whose totals parse succeeds is nonempty and starts neither with
`=` nor with `-`: such lines are never classified as structural noise. -/
theorem totalsOfLine_head (t : List Char) (h : (totalsOfLine t).isSome = true) :
    t.isEmpty = false ∧ startsWithChar t '=' = false ∧ startsWithChar t '-' = false := by
  cases t with
  | nil =>
    simp [totalsOfLine, total_pattern, readNat, List.span_eq_take_drop] at h
  | cons c t2 =>
    refine ⟨rfl, ?_, ?_⟩
    · cases hc : startsWithChar (c :: t2) '='
      · rfl
      · have hc2 : c = '=' := by simpa [startsWithChar] using hc
        subst hc2
        rw [totalsOfLine, total_pattern_cons_none _ _ (by decide) (by decide)] at h
        cases h
    · cases hc : startsWithChar (c :: t2) '-'
      · rfl
      · have hc2 : c = '-' := by simpa [startsWithChar] using hc
        subst hc2
        rw [totalsOfLine, total_pattern_cons_none _ _ (by decide) (by decide)] at h
        cases h

/-- Processing a good totals line while the totals section is open
overwrites the six totals with the values of that line. -/
theorem processLine_totals (st : PState) (l : List Char)
    (hf : st.in_function_section = false) (hfi : st.in_file_section = false)
    (ht : st.in_total_section = true)
    (hgood : goodTotalsLine l = true) :
    ∃ v, totalsOfLine (pyStrip l) = some v ∧ processLine st l = some (setTotals st v) := by
  simp only [goodTotalsLine, noHeaderLine, Bool.and_eq_true, Bool.not_eq_true'] at hgood
  obtain ⟨⟨⟨⟨⟨h1, h2⟩, h3⟩, h4⟩, h5⟩, h6⟩ := hgood
  obtain ⟨v, hv⟩ := Option.isSome_iff_exists.mp h6
  obtain ⟨hne, he, hm⟩ := totalsOfLine_head (pyStrip l) (by rw [hv]; rfl)
  refine ⟨v, hv, ?_⟩
  unfold processLine
  simp only [h1, h2, h3, h4, h5, hne, he, hm, hf, hfi, ht, Bool.or_self,
    Bool.or_false, Bool.false_eq_true, if_false, if_true]
  cases hp : total_pattern (pyStrip l) with
  | none => simp [totalsOfLine, hp] at hv
  | some g =>
    have hg : totalsOfGroups g = some v := by simpa [totalsOfLine, hp] using hv
    simp only [hp, hg]

/-- Folding the parser over good totals lines from a state with the totals
section open ends with the totals of the last line installed. -/
theorem foldlM_totals (ls : List (List Char)) :
    ∀ (st : PState), st.in_function_section = false → st.in_file_section = false →
    st.in_total_section = true →
    (∀ l ∈ ls, goodTotalsLine l = true) → ∀ (hne : ls ≠ []),
    ls.foldlM processLine st =
      (totalsOfLine (pyStrip (ls.getLast hne))).map (fun v => setTotals st v) := by
  induction ls with
  | nil => intro st _ _ _ _ hne; exact absurd rfl hne
  | cons l ls ih =>
    intro st hf hfi ht hall hne
    obtain ⟨v, hv, hstep⟩ := processLine_totals st l hf hfi ht (hall l (by simp))
    cases ls with
    | nil =>
      rw [List.foldlM_cons, hstep]
      show some (setTotals st v) = _
      simp [List.getLast, hv]
    | cons l2 ls2 =>
      rw [List.foldlM_cons, hstep]
      show List.foldlM processLine (setTotals st v) (l2 :: ls2) = _
      rw [ih (setTotals st v) hf hfi ht
        (fun x hx => hall x (by simp [hx])) (by simp)]
      rw [List.getLast_cons (by simp : l2 :: ls2 ≠ [])]
      rfl

/-- Claim C4: when the input opens its totals section and every following
line is a totals row in the grammar (with convertible decimals, no marker
and no banner), the parsed report carries exactly the six values of the
last such row — later rows overwrite earlier ones. -/
theorem claim_C4 (s : String) (ls : List (List Char))
    (hsplit : splitNl s.toList = totalHeader :: ls)
    (hne : ls ≠ [])
    (hall : ∀ l ∈ ls, goodTotalsLine l = true) :
    parse_lizard_output s =
      (totalsOfLine (pyStrip (ls.getLast hne))).map
        (fun v => stateResult (setTotals initState v)) := by
  unfold parse_lizard_output
  rw [hsplit, List.foldlM_cons]
  have hhdr : processLine initState totalHeader =
      some { initState with in_total_section := true } := by decide
  rw [hhdr]
  show (List.foldlM processLine { initState with in_total_section := true } ls).map stateResult = _
  rw [foldlM_totals ls _ rfl rfl rfl hall hne]
  cases totalsOfLine (pyStrip (ls.getLast hne)) with
  | none => rfl
  | some v => rfl

/-- Claim C4, witness: on a totals section holding the rows
`500  10.0  5.0  40.0  20  3` and `600  11.5  6.0  41.0  21  4`, the report
carries the values of the second row. -/
theorem claim_C4_witness : parse_lizard_output c4Input = some c4Expected := by
  have h := claim_C4 c4Input [c4Line1, c4Line2] (by decide) (by decide) (by decide)
  rw [h]
  decide

end LizardTUI
